import Mathlib

/-!
# Verification of the `san` payroll report generator

A shallow embedding of `san.py`: the CSV row parser (`parse_csv`,
`load_employees`) and the six report strategies (`PayoutReport`,
`AvgHourlyRateByDepartmentReport`, `CountByDepartmentReport`,
`TopPayoutReport`, `TopRateReport`, `TotalPayoutByDepartmentReport`).

Modelling choices:
* Python `dict` values are association lists in insertion order; updating an
  existing key keeps its position, inserting a new key appends at the end
  (`dictSet`), exactly like CPython dicts.
* Python `float` values are modelled as rationals (`ℚ`); `parseFloat?` models
  `float(s)` on the sign + decimal-digits (+ optional fractional part)
  fragment of its grammar.  The exponent/`inf`/`nan`/underscore forms are
  outside the model; no claim depends on them, and every value reaching
  `float` in the program has already been stripped of surrounding whitespace.
* `str.splitlines` is modelled for the `\n` line terminator (the only one the
  specification and tests use); `str.strip` uses `Char.isWhitespace`.
* The `PAY_RATE_KEYS` set literal is iterated by CPython in an
  implementation-defined order; the embedding fixes the order
  `hourly_rate, rate, salary` as `PAY_RATE_KEYS`, and the alias-policy
  theorems are quantified over arbitrary key orderings so they hold for every
  linearization of the set.
-/

namespace San

/-! ## Character-level string primitives (Python `str.split`, `str.strip`) -/

/-- Python `str.split(sep)` on an exploded string: split at every occurrence of
`sep`; the empty string yields one empty field, matching Python. -/
def splitOnChar (sep : Char) : List Char → List (List Char)
  | [] => [[]]
  | c :: cs =>
    if c = sep then [] :: splitOnChar sep cs
    else
      match splitOnChar sep cs with
      | [] => [[c]]
      | g :: gs => (c :: g) :: gs

/-- Python `str.strip()` on an exploded string: drop whitespace from both ends. -/
def trimChars (cs : List Char) : List Char :=
  ((cs.dropWhile Char.isWhitespace).reverse.dropWhile Char.isWhitespace).reverse

/-- Python `value.strip()`. -/
def pyStrip (s : String) : String := String.mk (trimChars s.toList)

/-- Python `line.split(sep)` for a one-character separator. -/
def pySplit (sep : Char) (s : String) : List String :=
  (splitOnChar sep s.toList).map String.mk

/-- Python `text.splitlines()` for `\n`-terminated text: split on `\n`,
dropping the empty trailing piece produced by a final newline; the empty
string yields no lines. -/
def splitlines (s : String) : List String :=
  let parts := splitOnChar '\n' s.toList
  (if parts.getLast? = some [] then parts.dropLast else parts).map String.mk

/-! ## Records: Python `dict[str, str]` as insertion-ordered association lists -/

/-- One parsed data row: a column-name → string-value mapping. -/
abbrev Record := List (String × String)

/-- Python `m.get(k)` / `k in m`: the value stored at key `k`, if any. -/
def dictGet (m : List (String × α)) (k : String) : Option α :=
  (m.find? (fun p => p.1 == k)).map (fun p => p.2)

/-- Python `m[k] = v`: update the value at `k` in place if the key exists,
otherwise append the new binding at the end (CPython dict insertion order). -/
def dictSet : List (String × α) → String → α → List (String × α)
  | [], k, v => [(k, v)]
  | p :: rest, k, v =>
    if p.1 == k then (k, v) :: rest else p :: dictSet rest k v

/-- Python `dict(pairs)`: build a dict left to right; a later pair with a
duplicate key overwrites the earlier value. -/
def dictOfPairs (pairs : List (String × String)) : Record :=
  pairs.foldl (fun m p => dictSet m p.1 p.2) []

/-! ## The row parser (`parse_csv`, `load_employees`) -/

/-- The body of the `for line in lines[1:]` loop of `parse_csv`: skip the
line if it is blank after stripping, split it on `,`, strip every field, drop
it if the field count mismatches the header, otherwise zip the header names
with the fields into a record. -/
def parseLine (headers : List String) (line : String) : Option Record :=
  if pyStrip line = "" then none
  else
    let values := (pySplit ',' line).map pyStrip
    if values.length == headers.length then
      some (dictOfPairs (headers.zip values))
    else none

/-- The function `parse_csv`: the first line (if any) is the header, every subsequent line
goes through `parseLine`. -/
def parse_csv (text : String) : List Record :=
  match splitlines text with
  | [] => []
  | headerLine :: rest =>
    let headers := (pySplit ',' headerLine).map pyStrip
    rest.filterMap (parseLine headers)

/-- The function `load_employees`, applied to the already-read contents of each file:
`employees.extend(parse_csv(f))` over the files in argument order. -/
def load_employees (files : List String) : List Record :=
  files.foldl (fun employees text => employees ++ parse_csv text) []

/-! ## Numeric parsing: Python `float(s)` on decimal literals -/

/-- The natural number denoted by a list of decimal digit characters. -/
def digitsToNat (cs : List Char) : ℕ :=
  cs.foldl (fun n c => 10 * n + (c.toNat - 48)) 0

/-- Python `float(s)` on the decimal-literal fragment: an optional sign, then
digits with at most one decimal point and at least one digit overall.
Returns `none` exactly where `float` raises `ValueError` on that fragment. -/
def parseFloat? (s : String) : Option ℚ :=
  let signDigits : Bool × List Char :=
    match s.toList with
    | '-' :: rest => (true, rest)
    | '+' :: rest => (false, rest)
    | cs => (false, cs)
  let neg := signDigits.1
  let intPart := signDigits.2.takeWhile (fun c => c ≠ '.')
  match signDigits.2.dropWhile (fun c => c ≠ '.') with
  | [] =>
    if intPart.isEmpty then none
    else if intPart.all Char.isDigit then
      some (if neg then -(digitsToNat intPart : ℚ) else (digitsToNat intPart : ℚ))
    else none
  | _ :: fracPart =>
    if fracPart.contains '.' then none
    else if intPart.isEmpty && fracPart.isEmpty then none
    else if (intPart ++ fracPart).all Char.isDigit then
      some (if neg then -(floatMag intPart fracPart) else floatMag intPart fracPart)
    else none
where
  /-- Magnitude of `intPart . fracPart`. -/
  floatMag (intPart fracPart : List Char) : ℚ :=
    if fracPart.isEmpty then (digitsToNat intPart : ℚ)
    else (digitsToNat intPart : ℚ) + (digitsToNat fracPart : ℚ) / (10 : ℚ) ^ fracPart.length

/-! ## Rate resolution (`get_pay_rate`, duplicated across strategies) -/

/-- The `PAY_RATE_KEYS` alias set, in a fixed linearization. -/
def PAY_RATE_KEYS : List String := ["hourly_rate", "rate", "salary"]

/-- The `get_pay_rate` method as written in `PayoutReport` and
`AvgHourlyRateByDepartmentReport`: on the first alias present in the row,
return the parse result — `except ValueError: return None` aborts the scan. -/
def getPayRateStrict : List String → Record → Option ℚ
  | [], _ => none
  | k :: ks, row =>
    match dictGet row k with
    | some v => parseFloat? v
    | none => getPayRateStrict ks row

/-- The `get_pay_rate` method as written in `TopPayoutReport`, `TopRateReport` and
`TotalPayoutByDepartmentReport`: `except ValueError: continue` skips a
present-but-unparseable alias and keeps scanning. -/
def getPayRateSkip : List String → Record → Option ℚ
  | [], _ => none
  | k :: ks, row =>
    match dictGet row k with
    | some v =>
      match parseFloat? v with
      | some q => some q
      | none => getPayRateSkip ks row
    | none => getPayRateSkip ks row

/-- Python `float(row.get("hours_worked", "0"))`, shared by the payout-computing
strategies: the default `"0"` applies only when the key is absent. -/
def hoursOf? (row : Record) : Option ℚ :=
  parseFloat? ((dictGet row "hours_worked").getD "0")

/-! ## PayoutReport -/

/-- One element of the `payouts` result list. -/
structure PayoutEntry where
  id : Option String
  name : Option String
  department : Option String
  hours_worked : ℚ
  rate : ℚ
  payout : ℚ
deriving DecidableEq, Repr

/-- The method `PayoutReport.generate`, returning the `payouts` list: skip a row whose
hours fail to parse or whose rate does not resolve (strict policy), otherwise
append one entry with `payout = hours * rate`. -/
def payoutGenerate : List Record → List PayoutEntry
  | [] => []
  | row :: rest =>
    match hoursOf? row with
    | none => payoutGenerate rest
    | some hours =>
      match getPayRateStrict PAY_RATE_KEYS row with
      | none => payoutGenerate rest
      | some rate =>
        { id := dictGet row "id", name := dictGet row "name",
          department := dictGet row "department",
          hours_worked := hours, rate := rate,
          payout := hours * rate } :: payoutGenerate rest

/-! ## AvgHourlyRateByDepartmentReport -/

/-- The two accumulator dicts of `AvgHourlyRateByDepartmentReport.generate`. -/
structure AvgState where
  dep_rates : List (String × ℚ)
  dep_counts : List (String × ℕ)
deriving DecidableEq, Repr

/-- The accumulation loop of `AvgHourlyRateByDepartmentReport.generate`: rows
whose rate does not resolve (strict policy) contribute nothing; otherwise add
the rate and bump the count under the department key (`"unknown"` when the
field is absent). -/
def avgLoop (st : AvgState) : List Record → AvgState
  | [] => st
  | row :: rest =>
    let department := (dictGet row "department").getD "unknown"
    match getPayRateStrict PAY_RATE_KEYS row with
    | none => avgLoop st rest
    | some rate =>
      avgLoop
        { dep_rates :=
            dictSet st.dep_rates department
              ((dictGet st.dep_rates department).getD 0 + rate)
          dep_counts :=
            dictSet st.dep_counts department
              ((dictGet st.dep_counts department).getD 0 + 1) }
        rest

/-- One element of the `average_hourly_rate_by_department` result list. -/
structure AvgEntry where
  department : String
  average_rate : ℚ
  employees : ℕ
deriving DecidableEq, Repr

/-- The method `AvgHourlyRateByDepartmentReport.generate`: accumulate both dicts, then
emit `dep_rates[d] / dep_counts[d]` per department in `dep_rates` order. -/
def avgHourlyRateGenerate (data : List Record) : List AvgEntry :=
  let st := avgLoop ⟨[], []⟩ data
  st.dep_rates.map fun p =>
    { department := p.1,
      average_rate := p.2 / ((dictGet st.dep_counts p.1).getD 0 : ℚ),
      employees := (dictGet st.dep_counts p.1).getD 0 }

/-! ## CountByDepartmentReport -/

/-- The counting loop of `CountByDepartmentReport.generate`: every row bumps
the count under its department key (`"unknown"` when absent). -/
def countByDepartmentLoop (counts : List (String × ℕ)) :
    List Record → List (String × ℕ)
  | [] => counts
  | row :: rest =>
    let department := (dictGet row "department").getD "unknown"
    countByDepartmentLoop
      (dictSet counts department ((dictGet counts department).getD 0 + 1)) rest

/-- The method `CountByDepartmentReport.generate`, returning the `count_by_department`
dict. -/
def countByDepartmentGenerate (data : List Record) : List (String × ℕ) :=
  countByDepartmentLoop [] data

/-! ## TopPayoutReport, TopRateReport -/

/-- The shared running-maximum loop of the two top reports: a row scoring `s`
replaces the holder `(m, r)` only when `s` is strictly greater than `m`
(Python `payout > max_payout`). -/
def topLoop (score : Record → Option ℚ) :
    List Record → Option (ℚ × Record) → Option (ℚ × Record)
  | [], acc => acc
  | row :: rest, acc =>
    match score row with
    | none => topLoop score rest acc
    | some s =>
      match acc with
      | none => topLoop score rest (some (s, row))
      | some (m, r) =>
        if m < s then topLoop score rest (some (s, row))
        else topLoop score rest (some (m, r))

/-- The payout a row scores in `TopPayoutReport.generate` and
`TotalPayoutByDepartmentReport.generate`: hours must parse, the rate resolves
under the skip policy, and the score is `hours * rate`. -/
def payoutScore (row : Record) : Option ℚ :=
  match hoursOf? row with
  | none => none
  | some hours => (getPayRateSkip PAY_RATE_KEYS row).map (fun rate => hours * rate)

/-- The `top_payout` result object. -/
structure TopPayoutEntry where
  name : Option String
  department : Option String
  payout : ℚ
deriving DecidableEq, Repr

/-- The method `TopPayoutReport.generate`: run the maximum loop; `if top_row:` is dict
truthiness, so an empty record as holder also yields `None`. -/
def topPayoutGenerate (data : List Record) : Option TopPayoutEntry :=
  match topLoop payoutScore data none with
  | some (m, row) =>
    if row.isEmpty then none
    else some { name := dictGet row "name", department := dictGet row "department",
                payout := m }
  | none => none

/-- The `top_rate` result object. -/
structure TopRateEntry where
  name : Option String
  department : Option String
  rate : ℚ
deriving DecidableEq, Repr

/-- The method `TopRateReport.generate`: like `topPayoutGenerate` but scoring each row by
its resolved rate alone (skip policy). -/
def topRateGenerate (data : List Record) : Option TopRateEntry :=
  match topLoop (fun row => getPayRateSkip PAY_RATE_KEYS row) data none with
  | some (m, row) =>
    if row.isEmpty then none
    else some { name := dictGet row "name", department := dictGet row "department",
                rate := m }
  | none => none

/-! ## TotalPayoutByDepartmentReport -/

/-- The accumulation loop of `TotalPayoutByDepartmentReport.generate`: rows
with unparseable hours or an unresolvable rate (skip policy) contribute
nothing; otherwise the payout is added under the department key. -/
def totalPayoutLoop (payouts : List (String × ℚ)) :
    List Record → List (String × ℚ)
  | [] => payouts
  | row :: rest =>
    let department := (dictGet row "department").getD "unknown"
    match payoutScore row with
    | none => totalPayoutLoop payouts rest
    | some payout =>
      totalPayoutLoop
        (dictSet payouts department ((dictGet payouts department).getD 0 + payout))
        rest

/-- The method `TotalPayoutByDepartmentReport.generate`, returning the
`total_payout_by_department` dict. -/
def totalPayoutByDepartmentGenerate (data : List Record) : List (String × ℚ) :=
  totalPayoutLoop [] data

/-- The worked example of the specification. -/
def exampleCSV : String :=
  "id,name,department,hours_worked,hourly_rate\n1,Alice,Marketing,160,50\n2,Bob,Design,150,40\n3,Carol,Design,170,60"

/-- Total headcount of a `count_by_department` dict. -/
def sumCounts (m : List (String × ℕ)) : ℕ := (m.map (fun p => p.2)).sum

/-- The record parsed from the example's first data line. -/
def aliceRecord : Record :=
  [("id", "1"), ("name", "Alice"), ("department", "Marketing"),
   ("hours_worked", "160"), ("hourly_rate", "50")]

/-- The record parsed from the example's second data line. -/
def bobRecord : Record :=
  [("id", "2"), ("name", "Bob"), ("department", "Design"),
   ("hours_worked", "150"), ("hourly_rate", "40")]

/-- The record parsed from the example's third data line. -/
def carolRecord : Record :=
  [("id", "3"), ("name", "Carol"), ("department", "Design"),
   ("hours_worked", "170"), ("hourly_rate", "60")]

/-! ## Dictionary lemmas -/

theorem dictGet_nil (k : String) : dictGet ([] : List (String × α)) k = none := rfl

theorem dictGet_cons (p : String × α) (m : List (String × α)) (k : String) :
    dictGet (p :: m) k = if p.1 = k then some p.2 else dictGet m k := by
  by_cases h : p.1 = k
  · simp [dictGet, List.find?, h]
  · have hb : (p.1 == k) = false := by simp [h]
    simp [dictGet, List.find?, h, hb]

theorem dictGet_dictSet (m : List (String × α)) (k k' : String) (v : α) :
    dictGet (dictSet m k v) k' = if k = k' then some v else dictGet m k' := by
  induction m with
  | nil => by_cases h : k = k' <;> simp [dictSet, dictGet_cons, dictGet, h]
  | cons p rest ih =>
    by_cases hp : p.1 = k
    · have hb : (p.1 == k) = true := by simp [hp]
      simp only [dictSet, hb, if_true]
      rw [dictGet_cons, dictGet_cons]
      by_cases h : k = k'
      · simp [h]
      · have hpk' : ¬ p.1 = k' := fun hh => h (hp ▸ hh)
        simp [h, hpk']
    · have hb : (p.1 == k) = false := by simp [hp]
      simp only [dictSet, hb, Bool.false_eq_true, if_false]
      rw [dictGet_cons, dictGet_cons, ih]
      by_cases hpk' : p.1 = k'
      · have hkk' : ¬ k = k' := fun hh => hp (hh ▸ hpk')
        simp [hpk', hkk']
      · simp [hpk']

theorem dictGet_isSome_of_mem {m : List (String × α)} {k : String} {v : α}
    (h : (k, v) ∈ m) : (dictGet m k).isSome := by
  induction m with
  | nil => cases h
  | cons p rest ih =>
    rcases List.mem_cons.mp h with h | h
    · subst h; simp [dictGet_cons]
    · rw [dictGet_cons]
      by_cases hp : p.1 = k <;> simp [hp, ih h]

theorem dictGet_foldl_dictSet_isSome {pairs : List (String × String)}
    {acc : Record} {k : String}
    (h : (dictGet (pairs.foldl (fun m p => dictSet m p.1 p.2) acc) k).isSome) :
    k ∈ pairs.map Prod.fst ∨ (dictGet acc k).isSome := by
  induction pairs generalizing acc with
  | nil => exact Or.inr h
  | cons p rest ih =>
    rcases @ih (dictSet acc p.1 p.2) h with h' | h'
    · exact Or.inl (by simp [h'])
    · rw [dictGet_dictSet] at h'
      by_cases hk : p.1 = k
      · exact Or.inl (by simp [hk])
      · rw [if_neg hk] at h'
        exact Or.inr h'

theorem sumCounts_bump (m : List (String × ℕ)) (k : String) :
    sumCounts (dictSet m k ((dictGet m k).getD 0 + 1)) = sumCounts m + 1 := by
  induction m with
  | nil => simp [dictSet, dictGet, sumCounts]
  | cons p rest ih =>
    by_cases hp : p.1 = k
    · simp [dictSet, hp, dictGet_cons, sumCounts]
      omega
    · simp only [dictSet, dictGet_cons, hp, if_neg, beq_iff_eq, if_false]
      simp only [sumCounts, List.map_cons, List.sum_cons] at ih ⊢
      omega

/-! ## Loop lemmas -/

theorem countByDepartmentLoop_sum (data : List Record)
    (acc : List (String × ℕ)) :
    sumCounts (countByDepartmentLoop acc data) = sumCounts acc + data.length := by
  induction data generalizing acc with
  | nil => simp [countByDepartmentLoop]
  | cons row rest ih =>
    simp only [countByDepartmentLoop, ih, sumCounts_bump, List.length_cons]
    omega

theorem topLoop_append (score : Record → Option ℚ) (xs ys : List Record)
    (acc : Option (ℚ × Record)) :
    topLoop score (xs ++ ys) acc = topLoop score ys (topLoop score xs acc) := by
  induction xs generalizing acc with
  | nil => simp [topLoop]
  | cons row rest ih =>
    simp only [List.cons_append, topLoop]
    cases hs : score row with
    | none => exact ih acc
    | some s =>
      cases acc with
      | none => exact ih _
      | some p =>
        by_cases hlt : p.1 < s <;> simp [hlt, ih]

theorem topLoop_stay (score : Record → Option ℚ) (xs : List Record)
    (m : ℚ) (r : Record)
    (h : ∀ row ∈ xs, ∀ s, score row = some s → s ≤ m) :
    topLoop score xs (some (m, r)) = some (m, r) := by
  induction xs with
  | nil => rfl
  | cons row rest ih =>
    simp only [topLoop]
    cases hs : score row with
    | none => exact ih fun q hq => h q (List.mem_cons_of_mem _ hq)
    | some s =>
      have hsle : s ≤ m := h row (List.mem_cons_self _ _) s hs
      have : ¬ m < s := not_lt.mpr hsle
      simp only [this, if_false]
      exact ih fun q hq => h q (List.mem_cons_of_mem _ hq)

theorem topLoop_below (score : Record → Option ℚ) (p : ℚ) (xs : List Record)
    (acc : Option (ℚ × Record))
    (hxs : ∀ row ∈ xs, ∀ s, score row = some s → s < p)
    (hacc : ∀ m r, acc = some (m, r) → m < p) :
    ∀ m r, topLoop score xs acc = some (m, r) → m < p := by
  induction xs generalizing acc with
  | nil => exact hacc
  | cons row rest ih =>
    intro m r h
    cases hs : score row with
    | none =>
      simp only [topLoop, hs] at h
      exact ih acc (fun q hq => hxs q (List.mem_cons_of_mem _ hq)) hacc m r h
    | some s =>
      have hsp : s < p := hxs row (List.mem_cons_self _ _) s hs
      have hrest : ∀ q ∈ rest, ∀ s', score q = some s' → s' < p :=
        fun q hq => hxs q (List.mem_cons_of_mem _ hq)
      have hnew : ∀ m' r', some (s, row) = some (m', r') → m' < p := by
        intro m' r' h'
        injection h' with h2
        injection h2 with h3 h4
        rw [← h3]
        exact hsp
      cases acc with
      | none =>
        simp only [topLoop, hs] at h
        exact ih _ hrest hnew m r h
      | some q =>
        obtain ⟨mq, rq⟩ := q
        by_cases hlt : mq < s
        · simp only [topLoop, hs, if_pos hlt] at h
          exact ih _ hrest hnew m r h
        · simp only [topLoop, hs, if_neg hlt] at h
          exact ih _ hrest hacc m r h

theorem topLoop_all_none (score : Record → Option ℚ) (xs : List Record)
    (h : ∀ row ∈ xs, score row = none) :
    topLoop score xs none = none := by
  induction xs with
  | nil => rfl
  | cons row rest ih =>
    simp only [topLoop, h row (List.mem_cons_self _ _)]
    exact ih fun q hq => h q (List.mem_cons_of_mem _ hq)

theorem payoutGenerate_append (xs ys : List Record) :
    payoutGenerate (xs ++ ys) = payoutGenerate xs ++ payoutGenerate ys := by
  induction xs with
  | nil => rfl
  | cons row rest ih =>
    simp only [List.cons_append, payoutGenerate]
    cases hoursOf? row with
    | none => exact ih
    | some hours =>
      cases getPayRateStrict PAY_RATE_KEYS row with
      | none => exact ih
      | some rate => simp [ih]

theorem getPayRateStrict_append_absent (ks₁ ks₂ : List String) (row : Record)
    (h : ∀ k' ∈ ks₁, dictGet row k' = none) :
    getPayRateStrict (ks₁ ++ ks₂) row = getPayRateStrict ks₂ row := by
  induction ks₁ with
  | nil => rfl
  | cons a t ih =>
    simp only [List.cons_append, getPayRateStrict, h a (List.mem_cons_self _ _)]
    exact ih fun k' hk => h k' (List.mem_cons_of_mem _ hk)

theorem getPayRateSkip_append_absent (ks₁ ks₂ : List String) (row : Record)
    (h : ∀ k' ∈ ks₁, dictGet row k' = none) :
    getPayRateSkip (ks₁ ++ ks₂) row = getPayRateSkip ks₂ row := by
  induction ks₁ with
  | nil => rfl
  | cons a t ih =>
    simp only [List.cons_append, getPayRateSkip, h a (List.mem_cons_self _ _)]
    exact ih fun k' hk => h k' (List.mem_cons_of_mem _ hk)

theorem parseFloat?_zero : parseFloat? "0" = some 0 := rfl

theorem parseLine_eq (headers : List String) (line : String) :
    parseLine headers line =
      if !(pyStrip line == "") &&
          ((pySplit ',' line).length == headers.length) then
        some (dictOfPairs (headers.zip ((pySplit ',' line).map pyStrip)))
      else none := by
  simp only [parseLine]
  by_cases h1 : pyStrip line = ""
  · simp [h1]
  · have hb : (pyStrip line == "") = false := by simp [h1]
    simp only [h1, if_false, hb, Bool.not_false, Bool.true_and]
    by_cases h2 : (pySplit ',' line).length = headers.length
    · simp [List.length_map, h2]
    · have : ((pySplit ',' line).map pyStrip).length ≠ headers.length := by
        simpa [List.length_map] using h2
      simp [this, h2]

theorem filterMap_if_eq_map_filter (p : α → Bool) (g : α → β) (l : List α) :
    (l.filterMap fun a => if p a then some (g a) else none) =
      (l.filter p).map g := by
  induction l with
  | nil => rfl
  | cons a t ih =>
    by_cases h : p a <;> simp [List.filterMap_cons, List.filter_cons, h, ih]

theorem load_employees_foldl (files : List String) (acc : List Record) :
    files.foldl (fun employees text => employees ++ parse_csv text) acc =
      acc ++ (files.map parse_csv).flatten := by
  induction files generalizing acc with
  | nil => simp
  | cons f t ih => simp [List.foldl_cons, ih, List.append_assoc]

theorem avgLoop_invariant (data : List Record) (st : AvgState)
    (h : ∀ d, (dictGet st.dep_rates d).isSome →
      ∃ n, dictGet st.dep_counts d = some n ∧ 1 ≤ n) :
    ∀ d, (dictGet (avgLoop st data).dep_rates d).isSome →
      ∃ n, dictGet (avgLoop st data).dep_counts d = some n ∧ 1 ≤ n := by
  induction data generalizing st with
  | nil => exact h
  | cons row rest ih =>
    cases hs : getPayRateStrict PAY_RATE_KEYS row with
    | none =>
      simp only [avgLoop, hs]
      exact ih st h
    | some rate =>
      simp only [avgLoop, hs]
      apply ih
      intro d hd
      rw [dictGet_dictSet] at hd
      rw [dictGet_dictSet]
      by_cases hk : (dictGet row "department").getD "unknown" = d
      · rw [if_pos hk]
        exact ⟨_, rfl, by omega⟩
      · rw [if_neg hk] at hd
        rw [if_neg hk]
        exact h d hd

theorem topLoop_first_max (score : Record → Option ℚ) (pre post : List Record)
    (row : Record) (p : ℚ)
    (hrow : score row = some p)
    (hpre : ∀ q ∈ pre, ∀ s, score q = some s → s < p)
    (hpost : ∀ q ∈ post, ∀ s, score q = some s → s ≤ p) :
    topLoop score (pre ++ row :: post) none = some (p, row) := by
  rw [topLoop_append]
  have hacc : ∀ m r, topLoop score pre none = some (m, r) → m < p :=
    topLoop_below score p pre none hpre (fun m r h => Option.noConfusion h)
  cases hacc' : topLoop score pre none with
  | none =>
    simp only [topLoop, hrow]
    exact topLoop_stay score post p row hpost
  | some q =>
    obtain ⟨mq, rq⟩ := q
    have hmq : mq < p := hacc mq rq hacc'
    simp only [topLoop, hrow, if_pos hmq]
    exact topLoop_stay score post p row hpost

/-! ## Claims -/

/-- C6: `parse_csv` on empty input returns an empty record sequence, and
every strategy's `generate` on the empty sequence returns its documented
empty-input result: empty `payouts`, empty
`average_hourly_rate_by_department`, empty `count_by_department`,
`top_payout = None`, `top_rate = None`, empty `total_payout_by_department`. -/
theorem empty_input_results :
    parse_csv "" = []
    ∧ payoutGenerate [] = []
    ∧ avgHourlyRateGenerate [] = []
    ∧ countByDepartmentGenerate [] = []
    ∧ topPayoutGenerate [] = none
    ∧ topRateGenerate [] = none
    ∧ totalPayoutByDepartmentGenerate [] = [] :=
  ⟨rfl, rfl, rfl, rfl, rfl, rfl, rfl⟩

/-- C10: `TopPayoutReport.generate` returns `top_payout = None` whenever no
record scores a payout (parseable hours and skip-resolvable rate), and
`TopRateReport.generate` returns `top_rate = None` whenever no record's rate
resolves — for arbitrary input sequences, not only the empty one. -/
theorem top_reports_none_when_no_record_qualifies (data : List Record) :
    ((∀ row ∈ data, payoutScore row = none) → topPayoutGenerate data = none)
    ∧ ((∀ row ∈ data, getPayRateSkip PAY_RATE_KEYS row = none) →
        topRateGenerate data = none) := by
  constructor
  · intro h
    simp only [topPayoutGenerate, topLoop_all_none _ _ h]
  · intro h
    simp only [topRateGenerate, topLoop_all_none _ _ h]

/-- Witness for C10: a nonempty input whose single record has no rate alias
at all (its hours still parse via the `"0"` default). -/
theorem top_reports_none_witness :
    topPayoutGenerate [[("name", "X")]] = none
    ∧ topRateGenerate [[("name", "X")]] = none :=
  ⟨(top_reports_none_when_no_record_qualifies [[("name", "X")]]).1 (by decide),
   (top_reports_none_when_no_record_qualifies [[("name", "X")]]).2 (by decide)⟩

/-- C2: when the first present rate alias (under any ordering of the alias
set, with all earlier aliases absent) has an unparseable value, the strict
resolver of `PayoutReport`/`AvgHourlyRateByDepartmentReport` returns absent
without consulting the remaining aliases — and the record contributes nothing
to those aggregates — whereas the skip resolver of
`TopPayoutReport`/`TopRateReport`/`TotalPayoutByDepartmentReport` continues
scanning the remaining aliases. -/
theorem rate_alias_policy (ks₁ ks₂ : List String) (k : String) (row : Record)
    (v : String)
    (habsent : ∀ k' ∈ ks₁, dictGet row k' = none)
    (hpresent : dictGet row k = some v)
    (hbad : parseFloat? v = none) :
    getPayRateStrict (ks₁ ++ k :: ks₂) row = none
    ∧ getPayRateSkip (ks₁ ++ k :: ks₂) row = getPayRateSkip ks₂ row
    ∧ (ks₁ ++ k :: ks₂ = PAY_RATE_KEYS →
        payoutGenerate [row] = [] ∧ avgHourlyRateGenerate [row] = []) := by
  have hstrict : getPayRateStrict (ks₁ ++ k :: ks₂) row = none := by
    rw [getPayRateStrict_append_absent ks₁ (k :: ks₂) row habsent]
    simp [getPayRateStrict, hpresent, hbad]
  refine ⟨hstrict, ?_, ?_⟩
  · rw [getPayRateSkip_append_absent ks₁ (k :: ks₂) row habsent]
    simp [getPayRateSkip, hpresent, hbad]
  · intro hkeys
    rw [hkeys] at hstrict
    constructor
    · cases hh : hoursOf? row <;> simp [payoutGenerate, hh, hstrict]
    · simp [avgHourlyRateGenerate, avgLoop, hstrict]

/-- Witness for C2: `hourly_rate` holds the unparseable `"abc"` while `rate`
holds `"7"`; the strict resolver fails outright, the skip resolver moves on
to the remaining aliases. -/
theorem rate_alias_policy_witness :
    getPayRateStrict ([] ++ "hourly_rate" :: ["rate", "salary"])
        [("hourly_rate", "abc"), ("rate", "7")] = none
    ∧ getPayRateSkip ([] ++ "hourly_rate" :: ["rate", "salary"])
        [("hourly_rate", "abc"), ("rate", "7")] =
      getPayRateSkip ["rate", "salary"] [("hourly_rate", "abc"), ("rate", "7")]
    ∧ ([] ++ "hourly_rate" :: ["rate", "salary"] = PAY_RATE_KEYS →
        payoutGenerate [[("hourly_rate", "abc"), ("rate", "7")]] = []
        ∧ avgHourlyRateGenerate [[("hourly_rate", "abc"), ("rate", "7")]] = []) :=
  rate_alias_policy [] ["rate", "salary"] "hourly_rate"
    [("hourly_rate", "abc"), ("rate", "7")] "abc" (by decide) rfl rfl

/-- C5: `parse_csv` keeps exactly the data lines that are non-blank after
stripping and whose comma-split field count equals the header's; the record
sequence is precisely those lines zipped against the header, so blank and
field-count-mismatched lines never appear, and its length is the number of
qualifying lines. -/
theorem parse_csv_structure (text : String) :
    (splitlines text = [] → parse_csv text = [])
    ∧ ∀ headerLine rest, splitlines text = headerLine :: rest →
        parse_csv text =
          (rest.filter fun line =>
              !(pyStrip line == "") &&
              ((pySplit ',' line).length == (pySplit ',' headerLine).length)).map
            (fun line =>
              dictOfPairs (((pySplit ',' headerLine).map pyStrip).zip
                ((pySplit ',' line).map pyStrip)))
          ∧ (parse_csv text).length =
            (rest.filter fun line =>
              !(pyStrip line == "") &&
              ((pySplit ',' line).length ==
                (pySplit ',' headerLine).length)).length := by
  constructor
  · intro h
    simp [parse_csv, h]
  · intro headerLine rest h
    have hmain : parse_csv text =
        (rest.filter fun line =>
            !(pyStrip line == "") &&
            ((pySplit ',' line).length == (pySplit ',' headerLine).length)).map
          (fun line =>
            dictOfPairs (((pySplit ',' headerLine).map pyStrip).zip
              ((pySplit ',' line).map pyStrip))) := by
      simp only [parse_csv, h]
      rw [show (rest.filterMap
            (parseLine ((pySplit ',' headerLine).map pyStrip))) =
          rest.filterMap fun line =>
            if !(pyStrip line == "") &&
                ((pySplit ',' line).length ==
                  ((pySplit ',' headerLine).map pyStrip).length) then
              some (dictOfPairs (((pySplit ',' headerLine).map pyStrip).zip
                ((pySplit ',' line).map pyStrip)))
            else none from
          List.filterMap_congr fun line _ => parseLine_eq _ line]
      rw [filterMap_if_eq_map_filter]
      simp [List.length_map]
    exact ⟨hmain, by rw [hmain, List.length_map]⟩

/-- Witness for C5: a file whose data lines are one well-formed line, one
blank line, and one field-count-mismatched line; only the first survives. -/
theorem parse_csv_structure_witness :
    parse_csv "h1,h2\n1,2\n \nbad" =
      ((["1,2", " ", "bad"].filter fun line =>
          !(pyStrip line == "") &&
          ((pySplit ',' line).length == (pySplit ',' "h1,h2").length)).map
        (fun line =>
          dictOfPairs (((pySplit ',' "h1,h2").map pyStrip).zip
            ((pySplit ',' line).map pyStrip))))
    ∧ (parse_csv "h1,h2\n1,2\n \nbad").length =
      (["1,2", " ", "bad"].filter fun line =>
        !(pyStrip line == "") &&
        ((pySplit ',' line).length == (pySplit ',' "h1,h2").length)).length :=
  (parse_csv_structure "h1,h2\n1,2\n \nbad").2 "h1,h2" ["1,2", " ", "bad"]
    (by decide)

/-- C7: in the three department-grouping reports the grouping key is the
literal `"unknown"` exactly when the `department` field is absent; a record
whose `department` is present — even as the empty string — is grouped under
that present value. -/
theorem department_grouping_key (row₁ row₂ : Record) (d : String)
    (habsent : dictGet row₁ "department" = none)
    (hpresent : dictGet row₂ "department" = some d) :
    (countByDepartmentGenerate [row₁] = [("unknown", 1)]
     ∧ (∀ r, getPayRateStrict PAY_RATE_KEYS row₁ = some r →
         avgHourlyRateGenerate [row₁] = [⟨"unknown", r, 1⟩])
     ∧ (∀ p, payoutScore row₁ = some p →
         totalPayoutByDepartmentGenerate [row₁] = [("unknown", p)]))
    ∧ (countByDepartmentGenerate [row₂] = [(d, 1)]
     ∧ (∀ r, getPayRateStrict PAY_RATE_KEYS row₂ = some r →
         avgHourlyRateGenerate [row₂] = [⟨d, r, 1⟩])
     ∧ (∀ p, payoutScore row₂ = some p →
         totalPayoutByDepartmentGenerate [row₂] = [(d, p)])) := by
  constructor
  · refine ⟨?_, ?_, ?_⟩
    · simp [countByDepartmentGenerate, countByDepartmentLoop, habsent,
        dictGet_nil, dictSet]
    · intro r hr
      simp [avgHourlyRateGenerate, avgLoop, habsent, hr, dictGet_nil, dictSet,
        dictGet_cons]
    · intro p hp
      simp [totalPayoutByDepartmentGenerate, totalPayoutLoop, habsent, hp,
        dictGet_nil, dictSet]
  · refine ⟨?_, ?_, ?_⟩
    · simp [countByDepartmentGenerate, countByDepartmentLoop, hpresent,
        dictGet_nil, dictSet]
    · intro r hr
      simp [avgHourlyRateGenerate, avgLoop, hpresent, hr, dictGet_nil, dictSet,
        dictGet_cons]
    · intro p hp
      simp [totalPayoutByDepartmentGenerate, totalPayoutLoop, hpresent, hp,
        dictGet_nil, dictSet]

/-- Witness for C7: a record with no `department` key groups under
`"unknown"`; a record with `department` present but equal to `""` groups
under `""`. -/
theorem department_grouping_key_witness :
    countByDepartmentGenerate [[("hours_worked", "2"), ("hourly_rate", "50")]] =
      [("unknown", 1)]
    ∧ avgHourlyRateGenerate [[("hours_worked", "2"), ("hourly_rate", "50")]] =
      [⟨"unknown", 50, 1⟩]
    ∧ totalPayoutByDepartmentGenerate
        [[("hours_worked", "2"), ("hourly_rate", "50")]] = [("unknown", 2 * 50)]
    ∧ countByDepartmentGenerate
        [[("department", ""), ("hours_worked", "2"), ("hourly_rate", "50")]] =
      [("", 1)]
    ∧ avgHourlyRateGenerate
        [[("department", ""), ("hours_worked", "2"), ("hourly_rate", "50")]] =
      [⟨"", 50, 1⟩]
    ∧ totalPayoutByDepartmentGenerate
        [[("department", ""), ("hours_worked", "2"), ("hourly_rate", "50")]] =
      [("", 2 * 50)] := by
  have h := department_grouping_key
    [("hours_worked", "2"), ("hourly_rate", "50")]
    [("department", ""), ("hours_worked", "2"), ("hourly_rate", "50")] ""
    rfl rfl
  exact ⟨h.1.1, h.1.2.1 50 rfl, h.1.2.2 (2 * 50) rfl,
    h.2.1, h.2.2.1 50 rfl, h.2.2.2 (2 * 50) rfl⟩

/-- C4: a record with no `hours_worked` key is kept with hours `0` (given a
resolvable rate), but a record whose `hours_worked` is present and
non-numeric is excluded from `PayoutReport`, `TopPayoutReport` and
`TotalPayoutByDepartmentReport`, while `CountByDepartmentReport` still counts
it. -/
theorem hours_absent_vs_nonnumeric (row₁ row₂ : Record) (rest : List Record)
    (v : String) (r : ℚ)
    (h₁ : dictGet row₁ "hours_worked" = none)
    (hr : getPayRateStrict PAY_RATE_KEYS row₁ = some r)
    (h₂ : dictGet row₂ "hours_worked" = some v)
    (hv : parseFloat? v = none) :
    payoutGenerate (row₁ :: rest) =
      { id := dictGet row₁ "id", name := dictGet row₁ "name",
        department := dictGet row₁ "department",
        hours_worked := 0, rate := r, payout := 0 * r } :: payoutGenerate rest
    ∧ payoutGenerate (row₂ :: rest) = payoutGenerate rest
    ∧ topPayoutGenerate (row₂ :: rest) = topPayoutGenerate rest
    ∧ totalPayoutByDepartmentGenerate (row₂ :: rest) =
        totalPayoutByDepartmentGenerate rest
    ∧ sumCounts (countByDepartmentGenerate (row₂ :: rest)) =
        sumCounts (countByDepartmentGenerate rest) + 1 := by
  have hh₁ : hoursOf? row₁ = some 0 := by
    rw [hoursOf?, h₁]
    exact parseFloat?_zero
  have hh₂ : hoursOf? row₂ = none := by
    rw [hoursOf?, h₂]
    exact hv
  have hscore : payoutScore row₂ = none := by simp [payoutScore, hh₂]
  refine ⟨?_, ?_, ?_, ?_, ?_⟩
  · simp [payoutGenerate, hh₁, hr]
  · simp [payoutGenerate, hh₂]
  · simp only [topPayoutGenerate, topLoop, hscore]
  · simp only [totalPayoutByDepartmentGenerate, totalPayoutLoop, hscore]
  · rw [countByDepartmentGenerate, countByDepartmentGenerate,
      countByDepartmentLoop_sum, countByDepartmentLoop_sum]
    simp only [List.length_cons]
    omega

/-- Witness for C4: `[("rate", "50")]` has no hours key and is kept at hours
`0`; a record with `hours_worked = "x"` is dropped by the three
payout-computing reports and still counted by the department count. -/
theorem hours_absent_vs_nonnumeric_witness :
    payoutGenerate [[("rate", "50")]] =
      { id := none, name := none, department := none,
        hours_worked := 0, rate := 50, payout := 0 * 50 } :: payoutGenerate []
    ∧ payoutGenerate [[("hours_worked", "x"), ("rate", "50")]] =
        payoutGenerate []
    ∧ topPayoutGenerate [[("hours_worked", "x"), ("rate", "50")]] =
        topPayoutGenerate []
    ∧ totalPayoutByDepartmentGenerate [[("hours_worked", "x"), ("rate", "50")]] =
        totalPayoutByDepartmentGenerate []
    ∧ sumCounts (countByDepartmentGenerate [[("hours_worked", "x"), ("rate", "50")]]) =
        sumCounts (countByDepartmentGenerate []) + 1 :=
  hours_absent_vs_nonnumeric [("rate", "50")]
    [("hours_worked", "x"), ("rate", "50")] [] "x" 50 rfl rfl rfl rfl

/-- C9: every strategy's `generate` is a total Lean function on arbitrary
record sequences by construction (bad numeric data is mapped to `none` by
`parseFloat?`, never an error), and in particular every entry that
`AvgHourlyRateByDepartmentReport.generate` emits has a qualifying count of at
least `1`, so its average is never a division by zero. -/
theorem avg_entries_division_guard (data : List Record) :
    ∀ e ∈ avgHourlyRateGenerate data, 1 ≤ e.employees := by
  intro e he
  simp only [avgHourlyRateGenerate] at he
  rcases List.mem_map.mp he with ⟨p, hp, rfl⟩
  obtain ⟨k, v⟩ := p
  have hsome : (dictGet (avgLoop ⟨[], []⟩ data).dep_rates k).isSome :=
    dictGet_isSome_of_mem hp
  rcases avgLoop_invariant data ⟨[], []⟩
      (by intro d hd; simp [dictGet] at hd) k hsome with ⟨n, hn, h1⟩
  simpa [hn] using h1

/-- Witness for C9: the single emitted entry on a one-record input has
`employees = 1`. -/
theorem avg_entries_division_guard_witness :
    1 ≤ (AvgEntry.mk "D" ((0 + 10) / ((1 : ℕ) : ℚ)) 1).employees :=
  avg_entries_division_guard [[("department", "D"), ("rate", "10")]]
    ⟨"D", (0 + 10) / ((1 : ℕ) : ℚ), 1⟩ (List.mem_singleton_self _)

/-- C3: in both top reports, when one record attains the maximal score and
every later record scores at most that value (so in particular on ties for
the maximum), the earlier record is the one returned: the running maximum is
replaced only on strictly greater comparison, never on equality. -/
theorem top_tiebreak_first_wins (pre post : List Record) (row : Record)
    (p : ℚ) :
    (payoutScore row = some p →
      (∀ q ∈ pre, ∀ s, payoutScore q = some s → s < p) →
      (∀ q ∈ post, ∀ s, payoutScore q = some s → s ≤ p) →
      row ≠ [] →
      topPayoutGenerate (pre ++ row :: post) =
        some ⟨dictGet row "name", dictGet row "department", p⟩)
    ∧ (getPayRateSkip PAY_RATE_KEYS row = some p →
      (∀ q ∈ pre, ∀ s, getPayRateSkip PAY_RATE_KEYS q = some s → s < p) →
      (∀ q ∈ post, ∀ s, getPayRateSkip PAY_RATE_KEYS q = some s → s ≤ p) →
      row ≠ [] →
      topRateGenerate (pre ++ row :: post) =
        some ⟨dictGet row "name", dictGet row "department", p⟩) := by
  constructor
  · intro hrow hpre hpost hne
    cases row with
    | nil => exact absurd rfl hne
    | cons a t =>
      simp only [topPayoutGenerate,
        topLoop_first_max payoutScore pre post (a :: t) p hrow hpre hpost]
      simp
  · intro hrow hpre hpost hne
    cases row with
    | nil => exact absurd rfl hne
    | cons a t =>
      simp only [topRateGenerate,
        topLoop_first_max (fun q => getPayRateSkip PAY_RATE_KEYS q) pre post
          (a :: t) p hrow hpre hpost]
      simp

/-- Witness for C3: two records with equal payout `2 * 3` (and equal rate
`3`); the earlier record `A` wins both top reports. -/
theorem top_tiebreak_first_wins_witness :
    topPayoutGenerate
        ([] ++ [("name", "A"), ("hours_worked", "2"), ("rate", "3")] ::
          [[("name", "B"), ("hours_worked", "2"), ("rate", "3")]]) =
      some ⟨some "A", none, 2 * 3⟩
    ∧ topRateGenerate
        ([] ++ [("name", "A"), ("hours_worked", "2"), ("rate", "3")] ::
          [[("name", "B"), ("hours_worked", "2"), ("rate", "3")]]) =
      some ⟨some "A", none, 3⟩ := by
  constructor
  · exact (top_tiebreak_first_wins []
      [[("name", "B"), ("hours_worked", "2"), ("rate", "3")]]
      [("name", "A"), ("hours_worked", "2"), ("rate", "3")] (2 * 3)).1
      rfl
      (fun q hq => absurd hq (List.not_mem_nil q))
      (fun q hq s hs => by
        rcases List.mem_singleton.mp hq with rfl
        rw [show payoutScore
            [("name", "B"), ("hours_worked", "2"), ("rate", "3")] =
            some (2 * 3) from rfl] at hs
        injection hs with h
        rw [← h])
      (List.cons_ne_nil _ _)
  · exact (top_tiebreak_first_wins []
      [[("name", "B"), ("hours_worked", "2"), ("rate", "3")]]
      [("name", "A"), ("hours_worked", "2"), ("rate", "3")] 3).2
      rfl
      (fun q hq => absurd hq (List.not_mem_nil q))
      (fun q hq s hs => by
        rcases List.mem_singleton.mp hq with rfl
        rw [show getPayRateSkip PAY_RATE_KEYS
            [("name", "B"), ("hours_worked", "2"), ("rate", "3")] =
            some 3 from rfl] at hs
        injection hs with h
        rw [← h])
      (List.cons_ne_nil _ _)

/-- C8: the loaded record sequence is the concatenation, in argument order,
of `parse_csv` applied to each file's text, and every key of every record
comes from that record's own file's header row. -/
theorem load_order_and_header_provenance :
    (∀ files, load_employees files = (files.map parse_csv).flatten)
    ∧ (∀ text r k, r ∈ parse_csv text → (dictGet r k).isSome →
        ∃ headerLine rest, splitlines text = headerLine :: rest
          ∧ k ∈ (pySplit ',' headerLine).map pyStrip) := by
  constructor
  · intro files
    rw [load_employees, load_employees_foldl]
    simp
  · intro text r k hr hk
    cases hsplit : splitlines text with
    | nil =>
      simp only [parse_csv, hsplit] at hr
      cases hr
    | cons headerLine rest =>
      simp only [parse_csv, hsplit] at hr
      rcases List.mem_filterMap.mp hr with ⟨line, hline, hparse⟩
      rw [parseLine_eq] at hparse
      by_cases hcond : !(pyStrip line == "") &&
          ((pySplit ',' line).length ==
            ((pySplit ',' headerLine).map pyStrip).length)
      · rw [if_pos hcond] at hparse
        injection hparse with hr'
        subst hr'
        simp only [dictOfPairs] at hk
        rcases dictGet_foldl_dictSet_isSome hk with h | h
        · rcases List.mem_map.mp h with ⟨pair, hpair, rfl⟩
          exact ⟨headerLine, rest, rfl, (List.of_mem_zip hpair).1⟩
        · rw [dictGet_nil] at h
          cases h
      · rw [if_neg hcond] at hparse
        cases hparse

/-- Witness for C8: two files with different headers; the record from the
first file has its keys in the first file's header. -/
theorem load_order_and_header_provenance_witness :
    load_employees ["a,b\n1,2", "c\n3"] =
      ((["a,b\n1,2", "c\n3"]).map parse_csv).flatten
    ∧ ∃ headerLine rest, splitlines "a,b\n1,2" = headerLine :: rest
        ∧ "a" ∈ (pySplit ',' headerLine).map pyStrip :=
  ⟨load_order_and_header_provenance.1 ["a,b\n1,2", "c\n3"],
   load_order_and_header_provenance.2 "a,b\n1,2" [("a", "1"), ("b", "2")] "a"
     (by decide) (by decide)⟩

/-- C1: every record whose hours parse (with the `"0"` default when absent)
and whose rate resolves contributes exactly one `payouts` entry, carrying its
id, name, department, hours, rate and `payout = hours * rate`; and on the
specification's example input the Payout report contains Alice at `8000`,
TopPayout returns Carol at `10200`, and CountByDepartment returns
`Marketing ↦ 1, Design ↦ 2`. -/
theorem payout_entries_and_example (pre post : List Record) (row : Record)
    (hours rate : ℚ)
    (hh : hoursOf? row = some hours)
    (hr : getPayRateStrict PAY_RATE_KEYS row = some rate) :
    payoutGenerate (pre ++ row :: post) =
      payoutGenerate pre ++
        { id := dictGet row "id", name := dictGet row "name",
          department := dictGet row "department",
          hours_worked := hours, rate := rate,
          payout := hours * rate } :: payoutGenerate post
    ∧ (∃ e ∈ payoutGenerate (parse_csv exampleCSV),
        e.name = some "Alice" ∧ e.payout = 8000)
    ∧ topPayoutGenerate (parse_csv exampleCSV) =
        some ⟨some "Carol", some "Design", 10200⟩
    ∧ countByDepartmentGenerate (parse_csv exampleCSV) =
        [("Marketing", 1), ("Design", 2)] := by
  have hparse : parse_csv exampleCSV = [aliceRecord, bobRecord, carolRecord] :=
    by decide
  refine ⟨?_, ?_, ?_, ?_⟩
  · rw [payoutGenerate_append]
    simp only [payoutGenerate, hh, hr]
  · rw [hparse]
    refine ⟨⟨some "1", some "Alice", some "Marketing", 160, 50, 160 * 50⟩, ?_,
      rfl, by norm_num⟩
    rw [show payoutGenerate [aliceRecord, bobRecord, carolRecord] =
      (⟨some "1", some "Alice", some "Marketing", 160, 50, 160 * 50⟩ :
        PayoutEntry) :: payoutGenerate [bobRecord, carolRecord] from rfl]
    exact List.mem_cons_self _ _
  · rw [hparse]
    have hpre : ∀ q ∈ [aliceRecord, bobRecord], ∀ s,
        payoutScore q = some s → s < 170 * 60 := by
      intro q hq s hs
      rcases List.mem_cons.mp hq with rfl | hq
      · rw [show payoutScore aliceRecord = some (160 * 50) from rfl] at hs
        injection hs with h
        rw [← h]
        norm_num
      · rcases List.mem_cons.mp hq with rfl | hq
        · rw [show payoutScore bobRecord = some (150 * 40) from rfl] at hs
          injection hs with h
          rw [← h]
          norm_num
        · exact absurd hq (List.not_mem_nil q)
    have hloop := topLoop_first_max payoutScore [aliceRecord, bobRecord] []
      carolRecord (170 * 60) rfl hpre
      (fun q hq => absurd hq (List.not_mem_nil q))
    rw [show ([aliceRecord, bobRecord] ++ carolRecord :: []) =
      [aliceRecord, bobRecord, carolRecord] from rfl] at hloop
    simp only [topPayoutGenerate, hloop]
    rw [show (10200 : ℚ) = 170 * 60 by norm_num]
    rfl
  · rw [hparse]
    decide

/-- Witness for C1: a single qualifying record with hours `2` and rate `3`
contributes exactly its one entry with payout `2 * 3`; the example-input
conjuncts are closed facts. -/
theorem payout_entries_and_example_witness :
    payoutGenerate
        ([] ++ [("id", "1"), ("hours_worked", "2"), ("rate", "3")] :: []) =
      payoutGenerate [] ++
        { id := some "1", name := none, department := none,
          hours_worked := 2, rate := 3, payout := 2 * 3 } :: payoutGenerate []
    ∧ (∃ e ∈ payoutGenerate (parse_csv exampleCSV),
        e.name = some "Alice" ∧ e.payout = 8000)
    ∧ topPayoutGenerate (parse_csv exampleCSV) =
        some ⟨some "Carol", some "Design", 10200⟩
    ∧ countByDepartmentGenerate (parse_csv exampleCSV) =
        [("Marketing", 1), ("Design", 2)] :=
  payout_entries_and_example [] []
    [("id", "1"), ("hours_worked", "2"), ("rate", "3")] 2 3 rfl rfl

end San
